import Mathlib

/-!
# Verification of the merge engine (`src/app/src/main/rust/src/libgit2/merge.rs`)

This file gives a shallow embedding of the repository's merge engine and
proves properties of it.  The engine consists of three functions:

* `fast_forward` — moves a branch reference to an incoming commit and
  checks out HEAD with forced options;
* `normal_merge` — performs a three-way merge, resolving conflicts with a
  fixed three-pass policy (ours, then theirs, then ancestor), aborting with
  a hard reset when conflicts remain, and otherwise creating a two-parent
  merge commit;
* `do_merge` — classifies the merge (fast-forward / normal / up-to-date)
  and dispatches.

The underlying object store (libgit2) is an external collaborator: its
operations are modelled by an environment `Env` that fixes the data each
call returns and may inject a failure into any call (mirroring the fact
that every `git2` call is fallible).  The engine itself is modelled as a
state-passing program over `RepoState` that also records a trace of the
store calls it makes, so that ordering, options passed, and absence of
calls can be stated and proved.
-/

/-- Object ids (commit / tree ids).  Real ids are content hashes; the model
only needs them to be comparable, so `Nat` is used. -/
abbrev Oid := Nat

/-- `git2::Error` is modelled by its message string (the code builds errors
with `git2::Error::from_str`). -/
abbrev GitError := String

/-- One index entry: a path together with the id of its content.  Mirrors
`git2::IndexEntry` restricted to the fields the merge code reads
(`entry.path`; the rest of the entry is opaque content). -/
structure IndexEntry where
  path : String
  contentId : Oid
deriving DecidableEq, Repr

/-- A three-way conflict: the `our`, `their` and `ancestor` slots of
`git2::IndexConflict`, any of which may be absent. -/
structure Conflict where
  our : Option IndexEntry
  their : Option IndexEntry
  ancestor : Option IndexEntry
deriving DecidableEq, Repr

/-- All entries present in the conflict's slots. -/
def Conflict.slotEntries (c : Conflict) : List IndexEntry :=
  c.our.toList ++ c.their.toList ++ c.ancestor.toList

/-- The paths carried by the conflict's present slots. -/
def Conflict.slotPaths (c : Conflict) : List String :=
  c.slotEntries.map (fun e => e.path)

/-- Whether the conflict is registered at path `p` (used to model that
`git_index_add` clears conflict records at the added entry's path). -/
def Conflict.touchesPath (c : Conflict) (p : String) : Bool :=
  c.slotPaths.any (fun q => q == p)

/-- The in-memory merge index produced by `repo.merge_trees`: staged
entries plus the set of unresolved conflicts. -/
structure MergeIndex where
  entries : List IndexEntry
  conflicts : List Conflict
deriving DecidableEq, Repr

/-- `Index::has_conflicts`. -/
def MergeIndex.has_conflicts (idx : MergeIndex) : Bool :=
  !idx.conflicts.isEmpty

/-- `Index::add`: stages `e` at its path (replacing any previous entry for
that path) and clears conflict records at that path, as libgit2's
`git_index_add` does. -/
def MergeIndex.add (idx : MergeIndex) (e : IndexEntry) : MergeIndex :=
  { entries := e :: idx.entries.filter (fun x => x.path != e.path),
    conflicts := idx.conflicts.filter (fun c => !(c.touchesPath e.path)) }

/-- The entry currently staged at path `p`. -/
def MergeIndex.entryAt (idx : MergeIndex) (p : String) : Option IndexEntry :=
  idx.entries.find? (fun x => x.path == p)

/-! ## The conflict resolver (merge.rs lines 40–91)

The three passes of `normal_merge` share one shape: iterate over the
snapshot `conflicts` vector, and for each conflict whose guard holds, add
the selected entry to the index (counting it as resolved when the add
succeeds).  `sel1`/`sel2`/`sel3` are the selection functions of the three
passes; `addOk` models whether `idx.add` succeeds for a given entry (a
failed add is logged by the code and the conflict stays unresolved). -/

/-- Pass 1 selection: `if let Some(our_entry) = &conflict.our`. -/
def sel1 (c : Conflict) : Option IndexEntry := c.our

/-- Pass 2 selection: `conflict.our.is_none() && conflict.their.is_some()`. -/
def sel2 (c : Conflict) : Option IndexEntry :=
  match c.our with
  | some _ => none
  | none => c.their

/-- Pass 3 selection:
`conflict.our.is_none() && conflict.their.is_none() && conflict.ancestor.is_some()`. -/
def sel3 (c : Conflict) : Option IndexEntry :=
  match c.our, c.their with
  | none, none => c.ancestor
  | _, _ => none

/-- State threaded through the resolution passes: the merge index being
mutated and `resolved_count`. -/
structure ResolveState where
  idx : MergeIndex
  resolvedCount : Nat
deriving DecidableEq, Repr

/-- Body of one pass iteration for one conflict. -/
def passStep (addOk : IndexEntry → Bool) (sel : Conflict → Option IndexEntry)
    (s : ResolveState) (c : Conflict) : ResolveState :=
  match sel c with
  | some e =>
      if addOk e then
        { idx := s.idx.add e, resolvedCount := s.resolvedCount + 1 }
      else
        s
  | none => s

/-- One full pass over the snapshot conflict list. -/
def runPass (addOk : IndexEntry → Bool) (sel : Conflict → Option IndexEntry)
    (cs : List Conflict) (s : ResolveState) : ResolveState :=
  cs.foldl (passStep addOk sel) s

/-- The conflict resolver of `normal_merge` (lines 40–91): snapshot the
conflicts, run pass 1 unconditionally, then passes 2 and 3 each guarded by
`idx.has_conflicts()`. -/
def resolveConflicts (addOk : IndexEntry → Bool) (idx : MergeIndex) : ResolveState :=
  let conflicts := idx.conflicts
  let s1 := runPass addOk sel1 conflicts { idx := idx, resolvedCount := 0 }
  let s2 := if s1.idx.has_conflicts then runPass addOk sel2 conflicts s1 else s1
  let s3 := if s2.idx.has_conflicts then runPass addOk sel3 conflicts s2 else s2
  s3

/-- A conflict is resolvable by the three-pass policy exactly when some
slot is present. -/
def anySlot (c : Conflict) : Bool :=
  c.our.isSome || c.their.isSome || c.ancestor.isSome

-- sanity checks (concrete executions of the resolver)
example :
    (resolveConflicts (fun _ => true)
      { entries := [],
        conflicts := [⟨some ⟨"a", 1⟩, some ⟨"a", 2⟩, some ⟨"a", 3⟩⟩] }).resolvedCount = 1 := by
  decide

example :
    (resolveConflicts (fun _ => true)
      { entries := [],
        conflicts := [⟨none, some ⟨"b", 2⟩, some ⟨"b", 3⟩⟩,
                      ⟨none, none, some ⟨"c", 9⟩⟩,
                      ⟨none, none, none⟩] }).resolvedCount = 2 := by
  decide

example :
    (resolveConflicts (fun _ => true)
      { entries := [],
        conflicts := [⟨some ⟨"a", 1⟩, some ⟨"a", 2⟩, none⟩,
                      ⟨none, some ⟨"b", 2⟩, none⟩] }).idx.entryAt "b"
      = some ⟨"b", 2⟩ := by
  decide

/-! ## The repository model

`RepoState` is the mutable repository state the engine touches: references
(branch name → commit id), the symbolic HEAD, the working set (as the id of
the tree it materializes), and whether the on-disk index reports conflicts.
`Effect` records every Snapshot Store call the engine makes, with the
arguments that matter to the specification (reflog messages, checkout
options, commit parents, …). -/

/-- Checkout options, as set through `git2::build::CheckoutBuilder`.
All fields default to `false`, matching the builder's defaults (safe
checkout). -/
structure CheckoutOpts where
  force : Bool := false
  allowConflicts : Bool := false
  conflictStyleMerge : Bool := false
deriving DecidableEq, Repr

/-- The checkout options used by `normal_merge` and by `fast_forward`:
`CheckoutBuilder::default().force()` (plus `allow_conflicts(false)`, which
is the default). -/
def forceOnlyOpts : CheckoutOpts := { force := true }

/-- The checkout options used on the unborn-branch path of `do_merge`:
`allow_conflicts(true).conflict_style_merge(true).force()`. -/
def unbornOpts : CheckoutOpts :=
  { force := true, allowConflicts := true, conflictStyleMerge := true }

/-- Trace of Snapshot Store calls (and log lines) made by the engine. -/
inductive Effect where
  | mergeAnalysis
  | findReference (name : String)
  | headLookup
  | findCommit (id : Oid)
  | treeOf (commit : Oid)
  | mergeBase (a b : Oid)
  | mergeTrees (ancestor ours theirs : Oid)
  | logInfo (msg : String)
  | logError (msg : String)
  | writeTree (tid : Oid)
  | findTree (tid : Oid)
  | checkoutTree (tid : Oid) (opts : CheckoutOpts)
  | repoIndex
  | addAll
  | indexWrite
  | resetHard (commit : Oid)
  | signatureLookup
  | createCommit (updateRef : Option String) (author committer : String)
      (msg : String) (tree : Oid) (parents : List Oid)
  | checkoutHead (opts : Option CheckoutOpts)
  | setTarget (name : String) (id : Oid) (logMsg : String)
  | setHead (name : String)
  | createReference (name : String) (id : Oid) (force : Bool) (logMsg : String)
deriving DecidableEq, Repr

/-- `true` exactly on merge-commit creation calls. -/
def Effect.isCreateCommit : Effect → Bool
  | .createCommit _ _ _ _ _ _ => true
  | _ => false

/-- `true` exactly on three-way tree-merge calls. -/
def Effect.isMergeTrees : Effect → Bool
  | .mergeTrees _ _ _ => true
  | _ => false

/-- The kinds of fallible Snapshot Store calls; `Env.fails` injects a
failure into all calls of a kind. -/
inductive OpKind where
  | mergeAnalysis
  | findReference
  | headLookup
  | findCommit
  | treeOf
  | mergeBase
  | mergeTrees
  | writeTree
  | findTree
  | checkoutTree
  | repoIndex
  | addAll
  | indexWrite
  | resetHard
  | signature
  | createCommit
  | checkoutHead
  | setTarget
  | setHead
  | createReference
deriving DecidableEq, Repr

/-- The Snapshot Store environment: the data each external call returns on
success, and an error injection per call kind (`none` = the call
succeeds).  `addOk` is the per-entry success of `Index::add` inside the
conflict resolver. -/
structure Env where
  treeOf : Oid → Oid
  mergeBaseOf : Oid → Oid → Oid
  mergedIndex : MergeIndex
  addOk : IndexEntry → Bool
  sig : String
  writeTreeId : Oid
  newCommitId : Oid
  analysisFastForward : Bool
  analysisNormal : Bool
  fails : OpKind → Option GitError

/-- Repository state mutated by the engine. -/
structure RepoState where
  branches : List (String × Oid)
  headRef : Option String
  workdir : Option Oid
  indexConflicts : Bool
deriving DecidableEq, Repr

/-- Look a reference up by name. -/
def findBranch (bs : List (String × Oid)) (n : String) : Option Oid :=
  (bs.find? (fun p => p.1 == n)).map (fun p => p.2)

/-- Create or move a reference. -/
def setBranch (bs : List (String × Oid)) (n : String) (i : Oid) : List (String × Oid) :=
  (n, i) :: bs.filter (fun p => p.1 != n)

/-- The commit HEAD currently resolves to. -/
def RepoState.headCommit (st : RepoState) : Option Oid :=
  match st.headRef with
  | some n => findBranch st.branches n
  | none => none

/-- The engine's monad: explicit state passing over repository state plus
call trace; the state reached so far is kept even when a call fails. -/
abbrev MSt := RepoState × List Effect

def M (α : Type) : Type := MSt → Except GitError α × MSt

instance : Monad M where
  pure a := fun s => (Except.ok a, s)
  bind m f := fun s =>
    match m s with
    | (Except.ok a, s') => f a s'
    | (Except.error e, s') => (Except.error e, s')

theorem M.pure_apply {α : Type} (a : α) (s : MSt) :
    (pure a : M α) s = (Except.ok a, s) := rfl

theorem M.bind_apply {α β : Type} (m : M α) (f : α → M β) (s : MSt) :
    (m >>= f) s =
      match m s with
      | (Except.ok a, s') => f a s'
      | (Except.error e, s') => (Except.error e, s') := rfl

def throwM {α : Type} (e : GitError) : M α := fun s => (Except.error e, s)

def getStateOp : M RepoState := fun s => (Except.ok s.1, s)

/-! ### The modelled Snapshot Store calls

Each operation records its trace entry, then fails if the environment
injects a failure for its kind, and otherwise returns its result and
applies its state effect. -/

/-- `repo.merge_analysis(&[commit])`. -/
def mergeAnalysisOp (env : Env) : M (Bool × Bool) := fun s =>
  let s1 := (s.1, s.2 ++ [Effect.mergeAnalysis])
  match env.fails OpKind.mergeAnalysis with
  | some e => (Except.error e, s1)
  | none => (Except.ok (env.analysisFastForward, env.analysisNormal), s1)

/-- `repo.find_reference(name)` — returned as a value (the code matches on
the result instead of propagating it with `?`). -/
def findReferenceOp (env : Env) (n : String) : M (Except GitError Unit) := fun s =>
  let s1 := (s.1, s.2 ++ [Effect.findReference n])
  let res :=
    match env.fails OpKind.findReference with
    | some e => Except.error e
    | none =>
      match findBranch s.1.branches n with
      | some _ => Except.ok ()
      | none => Except.error "reference not found"
  (Except.ok res, s1)

/-- `repo.reference_to_annotated_commit(&repo.head()?)?`: resolve HEAD to a
commit id (fails when HEAD cannot be resolved, e.g. unborn). -/
def headOp (env : Env) : M Oid := fun s =>
  let s1 := (s.1, s.2 ++ [Effect.headLookup])
  match env.fails OpKind.headLookup with
  | some e => (Except.error e, s1)
  | none =>
    match s.1.headCommit with
    | some c => (Except.ok c, s1)
    | none => (Except.error "HEAD not found", s1)

/-- `repo.find_commit(id)?`. -/
def findCommitOp (env : Env) (i : Oid) : M Oid := fun s =>
  let s1 := (s.1, s.2 ++ [Effect.findCommit i])
  match env.fails OpKind.findCommit with
  | some e => (Except.error e, s1)
  | none => (Except.ok i, s1)

/-- `commit.tree()?`. -/
def treeOfOp (env : Env) (c : Oid) : M Oid := fun s =>
  let s1 := (s.1, s.2 ++ [Effect.treeOf c])
  match env.fails OpKind.treeOf with
  | some e => (Except.error e, s1)
  | none => (Except.ok (env.treeOf c), s1)

/-- `repo.merge_base(a, b)?`. -/
def mergeBaseOp (env : Env) (a b : Oid) : M Oid := fun s =>
  let s1 := (s.1, s.2 ++ [Effect.mergeBase a b])
  match env.fails OpKind.mergeBase with
  | some e => (Except.error e, s1)
  | none => (Except.ok (env.mergeBaseOf a b), s1)

/-- `repo.merge_trees(&ancestor, &local_tree, &remote_tree, None)?`. -/
def mergeTreesOp (env : Env) (a o t : Oid) : M MergeIndex := fun s =>
  let s1 := (s.1, s.2 ++ [Effect.mergeTrees a o t])
  match env.fails OpKind.mergeTrees with
  | some e => (Except.error e, s1)
  | none => (Except.ok env.mergedIndex, s1)

/-- `idx.write_tree_to(repo)?`. -/
def writeTreeOp (env : Env) : M Oid := fun s =>
  let s1 := (s.1, s.2 ++ [Effect.writeTree env.writeTreeId])
  match env.fails OpKind.writeTree with
  | some e => (Except.error e, s1)
  | none => (Except.ok env.writeTreeId, s1)

/-- `repo.find_tree(tree_id)?`. -/
def findTreeOp (env : Env) (t : Oid) : M Oid := fun s =>
  let s1 := (s.1, s.2 ++ [Effect.findTree t])
  match env.fails OpKind.findTree with
  | some e => (Except.error e, s1)
  | none => (Except.ok t, s1)

/-- `repo.checkout_tree(tree, opts)?`: materializes the working set from
the tree. -/
def checkoutTreeOp (env : Env) (t : Oid) (opts : CheckoutOpts) : M Unit := fun s =>
  let s1 := (s.1, s.2 ++ [Effect.checkoutTree t opts])
  match env.fails OpKind.checkoutTree with
  | some e => (Except.error e, s1)
  | none => (Except.ok (), ({ s1.1 with workdir := some t }, s1.2))

/-- `repo.index()?`. -/
def repoIndexOp (env : Env) : M Unit := fun s =>
  let s1 := (s.1, s.2 ++ [Effect.repoIndex])
  match env.fails OpKind.repoIndex with
  | some e => (Except.error e, s1)
  | none => (Except.ok (), s1)

/-- `repo_index.add_all(["*"], DEFAULT, None)?`.  Modelled from the spec:
the full re-scan of the Working Set re-stages every path, and the
re-scanned index reports conflicts exactly for the paths the resolution
passes left unresolved (spec §4.4/§7: unresolved per-path failures
"always surface indirectly through the final conflict count").  The actual
re-scan lives in libgit2, outside this repository, so its conflict outcome
is taken as the residual-conflict flag computed by the caller. -/
def addAllOp (env : Env) (residual : Bool) : M Unit := fun s =>
  let s1 := (s.1, s.2 ++ [Effect.addAll])
  match env.fails OpKind.addAll with
  | some e => (Except.error e, s1)
  | none => (Except.ok (), ({ s1.1 with indexConflicts := residual }, s1.2))

/-- `repo_index.write()?`. -/
def indexWriteOp (env : Env) : M Unit := fun s =>
  let s1 := (s.1, s.2 ++ [Effect.indexWrite])
  match env.fails OpKind.indexWrite with
  | some e => (Except.error e, s1)
  | none => (Except.ok (), s1)

/-- `repo.reset(commit, ResetType::Hard, None)?`: moves the checked-out
branch back to `c`, overwrites the working set with `c`'s tree, and leaves
the index clean. -/
def resetHardOp (env : Env) (c : Oid) : M Unit := fun s =>
  let s1 := (s.1, s.2 ++ [Effect.resetHard c])
  match env.fails OpKind.resetHard with
  | some e => (Except.error e, s1)
  | none =>
    let st := s1.1
    let st' : RepoState :=
      { st with
        branches := match st.headRef with
          | some n => setBranch st.branches n c
          | none => st.branches,
        workdir := some (env.treeOf c),
        indexConflicts := false }
    (Except.ok (), (st', s1.2))

/-- `repo.signature()?`: the repository's configured identity. -/
def signatureOp (env : Env) : M String := fun s =>
  let s1 := (s.1, s.2 ++ [Effect.signatureLookup])
  match env.fails OpKind.signature with
  | some e => (Except.error e, s1)
  | none => (Except.ok env.sig, s1)

/-- `repo.commit(Some("HEAD"), &sig, &sig, &msg, &tree, &parents)?`: creates
the commit and, through the `Some("HEAD")` update-ref argument, moves the
branch HEAD points to onto the new commit. -/
def createCommitOp (env : Env) (updateRef : Option String) (author committer msg : String)
    (tree : Oid) (parents : List Oid) : M Oid := fun s =>
  let s1 := (s.1, s.2 ++ [Effect.createCommit updateRef author committer msg tree parents])
  match env.fails OpKind.createCommit with
  | some e => (Except.error e, s1)
  | none =>
    match s1.1.headRef with
    | some n =>
        (Except.ok env.newCommitId,
         ({ s1.1 with branches := setBranch s1.1.branches n env.newCommitId }, s1.2))
    | none => (Except.ok env.newCommitId, s1)

/-- `repo.checkout_head(opts)?`: synchronizes the working set with the tree
of the commit HEAD resolves to. -/
def checkoutHeadOp (env : Env) (opts : Option CheckoutOpts) : M Unit := fun s =>
  let s1 := (s.1, s.2 ++ [Effect.checkoutHead opts])
  match env.fails OpKind.checkoutHead with
  | some e => (Except.error e, s1)
  | none =>
    match s1.1.headCommit with
    | some c => (Except.ok (), ({ s1.1 with workdir := some (env.treeOf c) }, s1.2))
    | none => (Except.ok (), s1)

/-- `lb.set_target(id, msg)?`. -/
def setTargetOp (env : Env) (n : String) (i : Oid) (msg : String) : M Unit := fun s =>
  let s1 := (s.1, s.2 ++ [Effect.setTarget n i msg])
  match env.fails OpKind.setTarget with
  | some e => (Except.error e, s1)
  | none => (Except.ok (), ({ s1.1 with branches := setBranch s1.1.branches n i }, s1.2))

/-- `repo.set_head(name)?`. -/
def setHeadOp (env : Env) (n : String) : M Unit := fun s =>
  let s1 := (s.1, s.2 ++ [Effect.setHead n])
  match env.fails OpKind.setHead with
  | some e => (Except.error e, s1)
  | none => (Except.ok (), ({ s1.1 with headRef := some n }, s1.2))

/-- `repo.reference(name, id, true, msg)?`. -/
def createReferenceOp (env : Env) (n : String) (i : Oid) (force : Bool) (msg : String) :
    M Unit := fun s =>
  let s1 := (s.1, s.2 ++ [Effect.createReference n i force msg])
  match env.fails OpKind.createReference with
  | some e => (Except.error e, s1)
  | none => (Except.ok (), ({ s1.1 with branches := setBranch s1.1.branches n i }, s1.2))

/-- The `info!` logging macro: records the message in the trace. -/
def emitLog (msg : String) : M Unit := fun s =>
  (Except.ok (), (s.1, s.2 ++ [Effect.logInfo msg]))

/-- The `error!` logging macro: records the message in the trace. -/
def emitLogError (msg : String) : M Unit := fun s =>
  (Except.ok (), (s.1, s.2 ++ [Effect.logError msg]))

/-! ## The embedded programs -/

/-- `fast_forward` (merge.rs lines 3–23).  The reference's name is the
refname the caller looked up; `lb.name()` returns it as a string. -/
def fast_forward (env : Env) (refname : String) (rcId : Oid) : M Unit := do
  let msg := "Fast-Forward: Setting " ++ refname ++ " to id: " ++ toString rcId
  setTargetOp env refname rcId msg
  setHeadOp env refname
  checkoutHeadOp env (some forceOnlyOpts)

/-- `normal_merge` (merge.rs lines 25–161). -/
def normal_merge (env : Env) (localId remoteId : Oid) : M Unit := do
  let lc ← findCommitOp env localId
  let localTree ← treeOfOp env lc
  let rc ← findCommitOp env remoteId
  let remoteTree ← treeOfOp env rc
  let baseId ← mergeBaseOp env localId remoteId
  let bc ← findCommitOp env baseId
  let ancestorTree ← treeOfOp env bc
  let idx ← mergeTreesOp env ancestorTree localTree remoteTree
  let resultTree ←
    if idx.has_conflicts then do
      let _ ← emitLog "Merge conflicts detected, attempting automatic resolution..."
      let conflicts := idx.conflicts
      let r := resolveConflicts env.addOk idx
      let _ ← emitLog ("Resolved " ++ toString r.resolvedCount ++ "/"
        ++ toString conflicts.length ++ " conflicts")
      let treeId ← writeTreeOp env
      let resultTree ← findTreeOp env treeId
      checkoutTreeOp env resultTree forceOnlyOpts
      repoIndexOp env
      addAllOp env r.idx.has_conflicts
      indexWriteOp env
      let stq ← getStateOp
      if stq.indexConflicts then do
        let _ ← emitLogError ("Could not resolve all conflicts automatically (resolved "
          ++ toString r.resolvedCount ++ "/" ++ toString conflicts.length
          ++ "). Aborting merge.")
        let lc2 ← findCommitOp env localId
        resetHardOp env lc2
        throwM "Could not resolve all merge conflicts automatically"
      else
        pure resultTree
    else do
      let treeId ← writeTreeOp env
      let resultTree ← findTreeOp env treeId
      checkoutTreeOp env resultTree forceOnlyOpts
      repoIndexOp env
      addAllOp env false
      indexWriteOp env
      pure resultTree
  let msg := "Merge: " ++ toString remoteId ++ " into " ++ toString localId
  let sig ← signatureOp env
  let lc3 ← findCommitOp env localId
  let rc3 ← findCommitOp env remoteId
  let _ ← createCommitOp env (some "HEAD") sig sig msg resultTree [lc3, rc3]
  checkoutHeadOp env none

/-- `do_merge` (merge.rs lines 163–206). -/
def do_merge (env : Env) (remoteBranch : String) (fetchCommit : Oid) : M Unit := do
  let analysis ← mergeAnalysisOp env
  if analysis.1 then do
    let refname := "refs/heads/" ++ remoteBranch
    let fr ← findReferenceOp env refname
    match fr with
    | Except.ok _ => fast_forward env refname fetchCommit
    | Except.error _ => do
        createReferenceOp env refname fetchCommit true
          ("Setting " ++ remoteBranch ++ " to " ++ toString fetchCommit)
        setHeadOp env refname
        checkoutHeadOp env (some unbornOpts)
  else if analysis.2 then do
    let headCommit ← headOp env
    normal_merge env headCommit fetchCommit
  else
    pure ()

/-- Outcome of running an engine program from an initial state. -/
structure RunOut (α : Type) where
  result : Except GitError α
  state : RepoState
  trace : List Effect
deriving Repr

/-- Run a program from `st` with an empty trace. -/
def runM {α : Type} (m : M α) (st : RepoState) : RunOut α :=
  match m (st, []) with
  | (r, (st', tr)) => ⟨r, st', tr⟩

/-! ## Lemmas about the conflict resolver -/

theorem find?_filter_of_imp {α : Type} (l : List α) (p r : α → Bool)
    (h : ∀ x, p x = true → r x = true) : (l.filter r).find? p = l.find? p := by
  induction l with
  | nil => rfl
  | cons a t ih =>
    by_cases hp : p a = true
    · have hr := h a hp
      simp [List.filter_cons, hr, hp]
    · by_cases hr : r a = true
      · simp [List.filter_cons, hr, hp, ih]
      · simp [List.filter_cons, hr, hp, ih]

theorem entryAt_add_self (idx : MergeIndex) (e : IndexEntry) :
    (idx.add e).entryAt e.path = some e := by
  simp [MergeIndex.add, MergeIndex.entryAt]

theorem entryAt_add_ne (idx : MergeIndex) (e : IndexEntry) {q : String}
    (h : e.path ≠ q) : (idx.add e).entryAt q = idx.entryAt q := by
  simp only [MergeIndex.add, MergeIndex.entryAt, List.find?]
  have hbeq : (e.path == q) = false := by simp [h]
  rw [hbeq]
  simp only [Bool.false_eq_true, if_false]
  exact find?_filter_of_imp _ _ _ (fun x hx => by
    simp only [beq_iff_eq] at hx
    simp [bne, hx]
    intro hxe
    exact h hxe.symm)

theorem touches_iff (c : Conflict) (p : String) :
    c.touchesPath p = true ↔ p ∈ c.slotPaths := by
  simp [Conflict.touchesPath, List.any_eq_true]

theorem touches_eq_false (c : Conflict) (p : String) :
    c.touchesPath p = false ↔ p ∉ c.slotPaths := by
  rw [← Bool.not_eq_true, not_iff_not]
  exact touches_iff c p

theorem mem_conflicts_add (idx : MergeIndex) (e : IndexEntry) (c : Conflict)
    (h : c.touchesPath e.path = false) (hm : c ∈ idx.conflicts) :
    c ∈ (idx.add e).conflicts := by
  simp only [MergeIndex.add, List.mem_filter]
  exact ⟨hm, by simp [h]⟩

theorem has_conflicts_of_mem (idx : MergeIndex) (c : Conflict)
    (h : c ∈ idx.conflicts) : idx.has_conflicts = true := by
  cases hx : idx.conflicts with
  | nil => rw [hx] at h; cases h
  | cons a t => simp [MergeIndex.has_conflicts, hx]

theorem sel1_mem {c : Conflict} {e : IndexEntry} (h : sel1 c = some e) :
    e ∈ c.slotEntries := by
  simp only [sel1] at h
  simp [Conflict.slotEntries, h]

theorem sel2_mem {c : Conflict} {e : IndexEntry} (h : sel2 c = some e) :
    e ∈ c.slotEntries := by
  simp only [sel2] at h
  cases hx : c.our with
  | some _ => rw [hx] at h; cases h
  | none =>
    rw [hx] at h
    have h' : c.their = some e := h
    simp [Conflict.slotEntries, h']

theorem sel3_mem {c : Conflict} {e : IndexEntry} (h : sel3 c = some e) :
    e ∈ c.slotEntries := by
  simp only [sel3] at h
  cases hx : c.our with
  | some _ => rw [hx] at h; cases h
  | none =>
    rw [hx] at h
    cases hy : c.their with
    | some _ => rw [hy] at h; cases h
    | none =>
      rw [hy] at h
      have h' : c.ancestor = some e := h
      simp [Conflict.slotEntries, h']

theorem slotPaths_mem {c : Conflict} {e : IndexEntry} (h : e ∈ c.slotEntries) :
    e.path ∈ c.slotPaths := by
  simp only [Conflict.slotPaths, List.mem_map]
  exact ⟨e, h, rfl⟩

theorem runPass_mem (addOk : IndexEntry → Bool) (sel : Conflict → Option IndexEntry)
    (cs : List Conflict) (s : ResolveState) (c : Conflict)
    (hm : c ∈ s.idx.conflicts)
    (h : ∀ b ∈ cs, ∀ e, sel b = some e → c.touchesPath e.path = false) :
    c ∈ (runPass addOk sel cs s).idx.conflicts := by
  induction cs generalizing s with
  | nil => exact hm
  | cons b t ih =>
    rw [runPass, List.foldl_cons]
    apply ih
    · show c ∈ (passStep addOk sel s b).idx.conflicts
      unfold passStep
      cases hsel : sel b with
      | none => exact hm
      | some e =>
        by_cases hok : addOk e = true
        · simp only [hok, if_true]
          exact mem_conflicts_add _ _ _ (h b (List.mem_cons_self b t) e hsel) hm
        · simp only [hok, if_false]
          exact hm
    · intro b' hb' e hsel
      exact h b' (List.mem_cons_of_mem b hb') e hsel

theorem runPass_entryAt (addOk : IndexEntry → Bool) (sel : Conflict → Option IndexEntry)
    (cs : List Conflict) (s : ResolveState) {q : String} {e : IndexEntry}
    (hq : s.idx.entryAt q = some e)
    (h : ∀ b ∈ cs, ∀ x, sel b = some x → x.path = q → x = e) :
    (runPass addOk sel cs s).idx.entryAt q = some e := by
  induction cs generalizing s with
  | nil => exact hq
  | cons b t ih =>
    rw [runPass, List.foldl_cons]
    apply ih
    · show (passStep addOk sel s b).idx.entryAt q = some e
      unfold passStep
      cases hsel : sel b with
      | none => exact hq
      | some x =>
        by_cases hok : addOk x = true
        · simp only [hok, if_true]
          by_cases hpq : x.path = q
          · have hx : x = e := h b (List.mem_cons_self b t) x hsel hpq
            subst hx
            rw [← hpq]
            exact entryAt_add_self _ _
          · rw [entryAt_add_ne _ _ hpq]
            exact hq
        · simp only [hok, if_false]
          exact hq
    · intro b' hb' x hsel hpq
      exact h b' (List.mem_cons_of_mem b hb') x hsel hpq

theorem runPass_count (addOk : IndexEntry → Bool) (sel : Conflict → Option IndexEntry)
    (cs : List Conflict) (s : ResolveState) (hok : ∀ x, addOk x = true) :
    (runPass addOk sel cs s).resolvedCount
      = s.resolvedCount + cs.countP (fun c => (sel c).isSome) := by
  induction cs generalizing s with
  | nil => simp [runPass]
  | cons b t ih =>
    rw [runPass, List.foldl_cons, List.countP_cons]
    rw [show List.foldl (passStep addOk sel) (passStep addOk sel s b) t
          = runPass addOk sel t (passStep addOk sel s b) from rfl]
    rw [ih]
    unfold passStep
    cases hsel : sel b with
    | none => simp [hsel]
    | some x => simp [hsel, hok x]; omega

theorem runPass_count_le (addOk : IndexEntry → Bool) (sel : Conflict → Option IndexEntry)
    (cs : List Conflict) (s : ResolveState) :
    (runPass addOk sel cs s).resolvedCount
      ≤ s.resolvedCount + cs.countP (fun c => (sel c).isSome) := by
  induction cs generalizing s with
  | nil => simp [runPass]
  | cons b t ih =>
    rw [runPass, List.foldl_cons, List.countP_cons]
    have step := ih (passStep addOk sel s b)
    rw [show List.foldl (passStep addOk sel) (passStep addOk sel s b) t
          = runPass addOk sel t (passStep addOk sel s b) from rfl]
    have hcount : (passStep addOk sel s b).resolvedCount
        ≤ s.resolvedCount + (if ((sel b).isSome : Bool) then 1 else 0) := by
      unfold passStep
      cases hsel : sel b with
      | none => simp
      | some x =>
        by_cases hok : addOk x = true
        · simp [hok]
        · simp [hok]
    omega

/-- Two conflicts occupy disjoint path sets. -/
def PathRel (a b : Conflict) : Prop :=
  ∀ p, p ∈ a.slotPaths → p ∉ b.slotPaths

/-- The conflicts of a merge index are registered at pairwise distinct
paths (libgit2 keeps one conflict record per path, and the three slots of
one conflict share that path). -/
def PathsDisjoint (cs : List Conflict) : Prop :=
  cs.Pairwise PathRel

theorem PathRel.symmRel : Symmetric PathRel := by
  intro a b h p hpb hpa
  exact h p hpa hpb

theorem disjPaths_elim {cs : List Conflict} (hd : PathsDisjoint cs)
    {b c : Conflict} (hb : b ∈ cs) (hc : c ∈ cs) {p : String}
    (hpb : p ∈ b.slotPaths) (hpc : p ∈ c.slotPaths) : b = c := by
  by_contra hne
  exact List.Pairwise.forall PathRel.symmRel hd hb hc hne p hpb hpc

/-- If the pass selector rejects `c`, no selected entry of any conflict in
a path-disjoint list can touch `c`'s paths. -/
theorem cond_of_selNone {cs : List Conflict} (hd : PathsDisjoint cs)
    {c : Conflict} (hc : c ∈ cs) (sel : Conflict → Option IndexEntry)
    (hmem : ∀ b e, sel b = some e → e ∈ b.slotEntries)
    (hnone : sel c = none) :
    ∀ b ∈ cs, ∀ e, sel b = some e → c.touchesPath e.path = false := by
  intro b hb e hsel
  rw [touches_eq_false]
  intro hpc
  have hpb : e.path ∈ b.slotPaths := slotPaths_mem (hmem b e hsel)
  have hbc : b = c := disjPaths_elim hd hb hc hpb hpc
  rw [hbc, hnone] at hsel
  cases hsel

theorem sel2_isSome_our_none {c : Conflict} (h : (sel2 c).isSome = true) :
    sel1 c = none := by
  cases hx : c.our with
  | some v => simp [sel2, hx] at h
  | none => simp [sel1, hx]

theorem sel3_isSome_sel12_none {c : Conflict} (h : (sel3 c).isSome = true) :
    sel1 c = none ∧ sel2 c = none := by
  cases hx : c.our with
  | some v => simp [sel3, hx] at h
  | none =>
    cases hy : c.their with
    | some v => simp [sel3, hx, hy] at h
    | none => simp [sel1, sel2, hx, hy]

theorem countP_three_eq (cs : List Conflict) :
    cs.countP (fun c => (sel1 c).isSome) + cs.countP (fun c => (sel2 c).isSome)
      + cs.countP (fun c => (sel3 c).isSome) = cs.countP anySlot := by
  induction cs with
  | nil => simp
  | cons c t ih =>
    simp only [List.countP_cons]
    have hc : (if ((sel1 c).isSome : Bool) then 1 else 0)
        + (if ((sel2 c).isSome : Bool) then 1 else 0)
        + (if ((sel3 c).isSome : Bool) then 1 else 0)
        = (if (anySlot c : Bool) then 1 else 0) := by
      obtain ⟨o, t', a⟩ := c
      cases o <;> cases t' <;> cases a <;> simp [sel1, sel2, sel3, anySlot]
    omega

theorem countP_three_le (cs : List Conflict) :
    cs.countP (fun c => (sel1 c).isSome) + cs.countP (fun c => (sel2 c).isSome)
      + cs.countP (fun c => (sel3 c).isSome) ≤ cs.length := by
  rw [countP_three_eq]
  exact List.countP_le_length _

/-- A conflict with no present slot survives every pass: no `idx.add` can
clear it (it is registered at no path) and no pass selects it. -/
theorem resolve_keeps_allNone (addOk : IndexEntry → Bool) (idx : MergeIndex)
    {c : Conflict} (hc : c ∈ idx.conflicts) (hsp : c.slotPaths = []) :
    c ∈ (resolveConflicts addOk idx).idx.conflicts := by
  have htp : ∀ b ∈ idx.conflicts, ∀ (sel : Conflict → Option IndexEntry) (e : IndexEntry),
      sel b = some e → c.touchesPath e.path = false := by
    intro b hb sel e hsel
    rw [touches_eq_false, hsp]
    simp
  have hsurv1 : c ∈ (runPass addOk sel1 idx.conflicts ⟨idx, 0⟩).idx.conflicts :=
    runPass_mem _ _ _ _ _ hc (fun b hb e hsel => htp b hb sel1 e hsel)
  simp only [resolveConflicts]
  by_cases h2 : (runPass addOk sel1 idx.conflicts ⟨idx, 0⟩).idx.has_conflicts = true
  · simp only [if_pos h2]
    have hsurv2 : c ∈ (runPass addOk sel2 idx.conflicts
        (runPass addOk sel1 idx.conflicts ⟨idx, 0⟩)).idx.conflicts :=
      runPass_mem _ _ _ _ _ hsurv1 (fun b hb e hsel => htp b hb sel2 e hsel)
    by_cases h3 : (runPass addOk sel2 idx.conflicts
        (runPass addOk sel1 idx.conflicts ⟨idx, 0⟩)).idx.has_conflicts = true
    · simp only [if_pos h3]
      exact runPass_mem _ _ _ _ _ hsurv2 (fun b hb e hsel => htp b hb sel3 e hsel)
    · simp only [if_neg h3]
      exact hsurv2
  · simp only [if_neg h2]
    exact hsurv1

/-- With no per-path staging failures and path-disjoint conflicts, the
resolver's `resolved_count` is exactly the number of conflicts that have at
least one present slot. -/
theorem resolve_count_exact (addOk : IndexEntry → Bool) (idx : MergeIndex)
    (hok : ∀ x, addOk x = true) (hd : PathsDisjoint idx.conflicts) :
    (resolveConflicts addOk idx).resolvedCount = idx.conflicts.countP anySlot := by
  have hs1mem : ∀ (b : Conflict) (e : IndexEntry), sel1 b = some e → e ∈ b.slotEntries :=
    fun b e h => sel1_mem h
  have hs2mem : ∀ (b : Conflict) (e : IndexEntry), sel2 b = some e → e ∈ b.slotEntries :=
    fun b e h => sel2_mem h
  have hzero : ∀ k, (⟨idx, 0⟩ : ResolveState).resolvedCount = k → k = 0 := by
    intro k hk
    exact hk.symm
  have hg2zero : (runPass addOk sel1 idx.conflicts ⟨idx, 0⟩).idx.has_conflicts = false →
      idx.conflicts.countP (fun c => (sel2 c).isSome) = 0 := by
    intro h
    rw [List.countP_eq_zero]
    intro c hc hg
    have h1n : sel1 c = none := sel2_isSome_our_none hg
    have hsurv := runPass_mem addOk sel1 idx.conflicts ⟨idx, 0⟩ c hc
      (cond_of_selNone hd hc sel1 hs1mem h1n)
    have hcf := has_conflicts_of_mem _ _ hsurv
    rw [h] at hcf
    cases hcf
  have hg3zero1 : (runPass addOk sel1 idx.conflicts ⟨idx, 0⟩).idx.has_conflicts = false →
      idx.conflicts.countP (fun c => (sel3 c).isSome) = 0 := by
    intro h
    rw [List.countP_eq_zero]
    intro c hc hg
    have h12n := sel3_isSome_sel12_none hg
    have hsurv := runPass_mem addOk sel1 idx.conflicts ⟨idx, 0⟩ c hc
      (cond_of_selNone hd hc sel1 hs1mem h12n.1)
    have hcf := has_conflicts_of_mem _ _ hsurv
    rw [h] at hcf
    cases hcf
  have hg3zero2 : (runPass addOk sel2 idx.conflicts
        (runPass addOk sel1 idx.conflicts ⟨idx, 0⟩)).idx.has_conflicts = false →
      idx.conflicts.countP (fun c => (sel3 c).isSome) = 0 := by
    intro h
    rw [List.countP_eq_zero]
    intro c hc hg
    have h12n := sel3_isSome_sel12_none hg
    have hsurv1 := runPass_mem addOk sel1 idx.conflicts ⟨idx, 0⟩ c hc
      (cond_of_selNone hd hc sel1 hs1mem h12n.1)
    have hsurv2 := runPass_mem addOk sel2 idx.conflicts
      (runPass addOk sel1 idx.conflicts ⟨idx, 0⟩) c hsurv1
      (cond_of_selNone hd hc sel2 hs2mem h12n.2)
    have hcf := has_conflicts_of_mem _ _ hsurv2
    rw [h] at hcf
    cases hcf
  have hthree := countP_three_eq idx.conflicts
  have hzero0 : (⟨idx, 0⟩ : ResolveState).resolvedCount = 0 := rfl
  simp only [resolveConflicts]
  by_cases h2 : (runPass addOk sel1 idx.conflicts ⟨idx, 0⟩).idx.has_conflicts = true
  · simp only [if_pos h2]
    by_cases h3 : (runPass addOk sel2 idx.conflicts
        (runPass addOk sel1 idx.conflicts ⟨idx, 0⟩)).idx.has_conflicts = true
    · simp only [if_pos h3]
      rw [runPass_count _ _ _ _ hok, runPass_count _ _ _ _ hok, runPass_count _ _ _ _ hok,
        hzero0]
      omega
    · simp only [if_neg h3]
      have hz3 := hg3zero2 (Bool.not_eq_true _ ▸ h3)
      rw [runPass_count _ _ _ _ hok, runPass_count _ _ _ _ hok, hzero0]
      omega
  · simp only [if_neg h2]
    have h2f : (runPass addOk sel1 idx.conflicts ⟨idx, 0⟩).idx.has_conflicts = false :=
      Bool.not_eq_true _ ▸ h2
    have hz2 := hg2zero h2f
    have hz3 := hg3zero1 h2f
    rw [runPass_count _ _ _ _ hok, hzero0]
    omega

/-- Without any assumptions, the resolver's count never exceeds the number
of conflicts (each conflict passes at most one pass's guard). -/
theorem resolve_count_le (addOk : IndexEntry → Bool) (idx : MergeIndex) :
    (resolveConflicts addOk idx).resolvedCount ≤ idx.conflicts.length := by
  have hthree := countP_three_le idx.conflicts
  have hzero0 : (⟨idx, 0⟩ : ResolveState).resolvedCount = 0 := rfl
  have b1 := runPass_count_le addOk sel1 idx.conflicts ⟨idx, 0⟩
  rw [hzero0] at b1
  simp only [resolveConflicts]
  by_cases h2 : (runPass addOk sel1 idx.conflicts ⟨idx, 0⟩).idx.has_conflicts = true
  · simp only [if_pos h2]
    have b2 := runPass_count_le addOk sel2 idx.conflicts
      (runPass addOk sel1 idx.conflicts ⟨idx, 0⟩)
    by_cases h3 : (runPass addOk sel2 idx.conflicts
        (runPass addOk sel1 idx.conflicts ⟨idx, 0⟩)).idx.has_conflicts = true
    · simp only [if_pos h3]
      have b3 := runPass_count_le addOk sel3 idx.conflicts
        (runPass addOk sel2 idx.conflicts (runPass addOk sel1 idx.conflicts ⟨idx, 0⟩))
      omega
    · simp only [if_neg h3]
      omega
  · simp only [if_neg h2]
    omega

/-- Processing a selected conflict inside a pass stages its selected entry,
and the rest of the pass (over path-disjoint conflicts) does not displace
it. -/
theorem pass_stages (addOk : IndexEntry → Bool) (sel : Conflict → Option IndexEntry)
    (cs : List Conflict) (s : ResolveState) {c : Conflict} {e : IndexEntry}
    (hok : ∀ x, addOk x = true)
    (hmem : ∀ b x, sel b = some x → x ∈ b.slotEntries)
    (hd : PathsDisjoint cs) (hc : c ∈ cs) (hsel : sel c = some e) :
    (runPass addOk sel cs s).idx.entryAt e.path = some e := by
  obtain ⟨l₁, l₂, hsplit⟩ := List.append_of_mem hc
  subst hsplit
  rw [runPass, List.foldl_append, List.foldl_cons]
  have hstep : (passStep addOk sel (List.foldl (passStep addOk sel) s l₁) c).idx.entryAt e.path
      = some e := by
    unfold passStep
    rw [hsel]
    simp only [hok e, if_true]
    exact entryAt_add_self _ _
  refine runPass_entryAt addOk sel l₂ _ hstep ?_
  intro b hb x hselb hpx
  have hep : e.path ∈ c.slotPaths := slotPaths_mem (hmem c e hsel)
  have hxb : x.path ∈ b.slotPaths := slotPaths_mem (hmem b x hselb)
  have hbmem : b ∈ l₁ ++ c :: l₂ := List.mem_append_right _ (List.mem_cons_of_mem _ hb)
  have hcmem : c ∈ l₁ ++ c :: l₂ := List.mem_append_right _ (List.mem_cons_self _ _)
  have hbc : b = c := disjPaths_elim hd hbmem hcmem (hpx ▸ hxb) hep
  rw [hbc, hsel] at hselb
  exact (Option.some.inj hselb).symm

/-- A pass that does not select `c` leaves the entry staged at `c`'s path
untouched (over path-disjoint conflicts). -/
theorem pass_preserves (addOk : IndexEntry → Bool) (sel : Conflict → Option IndexEntry)
    (cs : List Conflict) (s : ResolveState) {c : Conflict} {e : IndexEntry}
    (hmem : ∀ b x, sel b = some x → x ∈ b.slotEntries)
    (hd : PathsDisjoint cs) (hc : c ∈ cs)
    (hep : e.path ∈ c.slotPaths)
    (hnone : sel c = none)
    (hs : s.idx.entryAt e.path = some e) :
    (runPass addOk sel cs s).idx.entryAt e.path = some e := by
  refine runPass_entryAt addOk sel cs s hs ?_
  intro b hb x hselb hpx
  have hxb : x.path ∈ b.slotPaths := slotPaths_mem (hmem b x hselb)
  have hbc : b = c := disjPaths_elim hd hb hc (hpx ▸ hxb) hep
  rw [hbc, hnone] at hselb
  cases hselb

/-- Pass 1 of the resolver stages the `our` entry of every conflict that
has one, and it is still staged at the end. -/
theorem resolve_stages_ours (addOk : IndexEntry → Bool) (idx : MergeIndex)
    {c : Conflict} {e : IndexEntry}
    (hok : ∀ x, addOk x = true) (hd : PathsDisjoint idx.conflicts)
    (hc : c ∈ idx.conflicts) (he : c.our = some e) :
    (resolveConflicts addOk idx).idx.entryAt e.path = some e := by
  have hsel : sel1 c = some e := he
  have hep : e.path ∈ c.slotPaths := slotPaths_mem (sel1_mem hsel)
  have h2none : sel2 c = none := by simp [sel2, he]
  have h3none : sel3 c = none := by simp [sel3, he]
  have h1 : (runPass addOk sel1 idx.conflicts ⟨idx, 0⟩).idx.entryAt e.path = some e :=
    pass_stages addOk sel1 idx.conflicts ⟨idx, 0⟩ hok (fun b x h => sel1_mem h) hd hc hsel
  simp only [resolveConflicts]
  by_cases h2 : (runPass addOk sel1 idx.conflicts ⟨idx, 0⟩).idx.has_conflicts = true
  · simp only [if_pos h2]
    have hkeep2 := pass_preserves addOk sel2 idx.conflicts
      (runPass addOk sel1 idx.conflicts ⟨idx, 0⟩) (fun b x h => sel2_mem h) hd hc hep h2none h1
    by_cases h3 : (runPass addOk sel2 idx.conflicts
        (runPass addOk sel1 idx.conflicts ⟨idx, 0⟩)).idx.has_conflicts = true
    · simp only [if_pos h3]
      exact pass_preserves addOk sel3 idx.conflicts _ (fun b x h => sel3_mem h) hd hc hep
        h3none hkeep2
    · simp only [if_neg h3]
      exact hkeep2
  · simp only [if_neg h2]
    exact h1

/-- Pass 2 of the resolver stages the `their` entry of every conflict whose
`our` slot is absent and whose `their` slot is present. -/
theorem resolve_stages_theirs (addOk : IndexEntry → Bool) (idx : MergeIndex)
    {c : Conflict} {e : IndexEntry}
    (hok : ∀ x, addOk x = true) (hd : PathsDisjoint idx.conflicts)
    (hc : c ∈ idx.conflicts) (hour : c.our = none) (he : c.their = some e) :
    (resolveConflicts addOk idx).idx.entryAt e.path = some e := by
  have hsel : sel2 c = some e := by simp [sel2, hour, he]
  have h1none : sel1 c = none := hour
  have h3none : sel3 c = none := by simp [sel3, hour, he]
  have hep : e.path ∈ c.slotPaths := slotPaths_mem (sel2_mem hsel)
  have hsurv1 : c ∈ (runPass addOk sel1 idx.conflicts ⟨idx, 0⟩).idx.conflicts :=
    runPass_mem addOk sel1 idx.conflicts ⟨idx, 0⟩ c hc
      (cond_of_selNone hd hc sel1 (fun b x h => sel1_mem h) h1none)
  have h2 : (runPass addOk sel1 idx.conflicts ⟨idx, 0⟩).idx.has_conflicts = true :=
    has_conflicts_of_mem _ _ hsurv1
  have hstage : (runPass addOk sel2 idx.conflicts
      (runPass addOk sel1 idx.conflicts ⟨idx, 0⟩)).idx.entryAt e.path = some e :=
    pass_stages addOk sel2 idx.conflicts _ hok (fun b x h => sel2_mem h) hd hc hsel
  simp only [resolveConflicts]
  simp only [if_pos h2]
  by_cases h3 : (runPass addOk sel2 idx.conflicts
      (runPass addOk sel1 idx.conflicts ⟨idx, 0⟩)).idx.has_conflicts = true
  · simp only [if_pos h3]
    exact pass_preserves addOk sel3 idx.conflicts _ (fun b x h => sel3_mem h) hd hc hep
      h3none hstage
  · simp only [if_neg h3]
    exact hstage

/-- Pass 3 of the resolver stages the `ancestor` entry of every conflict
whose `our` and `their` slots are both absent. -/
theorem resolve_stages_ancestor (addOk : IndexEntry → Bool) (idx : MergeIndex)
    {c : Conflict} {e : IndexEntry}
    (hok : ∀ x, addOk x = true) (hd : PathsDisjoint idx.conflicts)
    (hc : c ∈ idx.conflicts) (hour : c.our = none) (hth : c.their = none)
    (he : c.ancestor = some e) :
    (resolveConflicts addOk idx).idx.entryAt e.path = some e := by
  have hsel : sel3 c = some e := by simp [sel3, hour, hth, he]
  have h1none : sel1 c = none := hour
  have h2none : sel2 c = none := by simp [sel2, hour, hth]
  have hsurv1 : c ∈ (runPass addOk sel1 idx.conflicts ⟨idx, 0⟩).idx.conflicts :=
    runPass_mem addOk sel1 idx.conflicts ⟨idx, 0⟩ c hc
      (cond_of_selNone hd hc sel1 (fun b x h => sel1_mem h) h1none)
  have h2 : (runPass addOk sel1 idx.conflicts ⟨idx, 0⟩).idx.has_conflicts = true :=
    has_conflicts_of_mem _ _ hsurv1
  have hsurv2 : c ∈ (runPass addOk sel2 idx.conflicts
      (runPass addOk sel1 idx.conflicts ⟨idx, 0⟩)).idx.conflicts :=
    runPass_mem addOk sel2 idx.conflicts _ c hsurv1
      (cond_of_selNone hd hc sel2 (fun b x h => sel2_mem h) h2none)
  have h3 : (runPass addOk sel2 idx.conflicts
      (runPass addOk sel1 idx.conflicts ⟨idx, 0⟩)).idx.has_conflicts = true :=
    has_conflicts_of_mem _ _ hsurv2
  simp only [resolveConflicts]
  simp only [if_pos h2, if_pos h3]
  exact pass_stages addOk sel3 idx.conflicts _ hok (fun b x h => sel3_mem h) hd hc hsel

/-! ## Lemmas about the repository model and symbolic runs -/

theorem findBranch_setBranch_self (bs : List (String × Oid)) (n : String) (i : Oid) :
    findBranch (setBranch bs n i) n = some i := by
  simp [findBranch, setBranch]

/-- A successful `fast_forward` run: the branch pointer is set (with the
fast-forward reflog message), then HEAD, then the working set is
materialized from the incoming commit's tree — exactly these three store
calls, in this order. -/
theorem run_fast_forward (env : Env) (st : RepoState) (n : String) (i : Oid)
    (h1 : env.fails OpKind.setTarget = none)
    (h2 : env.fails OpKind.setHead = none)
    (h3 : env.fails OpKind.checkoutHead = none) :
    runM (fast_forward env n i) st =
      ⟨Except.ok (),
       { branches := setBranch st.branches n i,
         headRef := some n,
         workdir := some (env.treeOf i),
         indexConflicts := st.indexConflicts },
       [Effect.setTarget n i ("Fast-Forward: Setting " ++ n ++ " to id: " ++ toString i),
        Effect.setHead n,
        Effect.checkoutHead (some forceOnlyOpts)]⟩ := by
  simp only [runM, fast_forward, setTargetOp, setHeadOp, checkoutHeadOp, M.bind_apply,
    h1, h2, h3, RepoState.headCommit, findBranch_setBranch_self,
    List.nil_append, List.cons_append, List.append_nil]

/-- The abort path of `normal_merge`: conflicts were detected, and after
the resolution passes, checkout, and re-scan, conflicts remain.  The run
hard-resets the checked-out branch and the working set to the local commit,
logs the resolved/total counts, and fails with the fixed error message —
and never calls `create_commit`. -/
theorem run_normal_merge_abort (env : Env) (st : RepoState) (l r : Oid)
    (hf : ∀ k, env.fails k = none)
    (hc : env.mergedIndex.has_conflicts = true)
    (hres : (resolveConflicts env.addOk env.mergedIndex).idx.has_conflicts = true) :
    runM (normal_merge env l r) st =
      ⟨Except.error "Could not resolve all merge conflicts automatically",
       { branches := match st.headRef with
           | some n => setBranch st.branches n l
           | none => st.branches,
         headRef := st.headRef,
         workdir := some (env.treeOf l),
         indexConflicts := false },
       [Effect.findCommit l, Effect.treeOf l, Effect.findCommit r, Effect.treeOf r,
        Effect.mergeBase l r, Effect.findCommit (env.mergeBaseOf l r),
        Effect.treeOf (env.mergeBaseOf l r),
        Effect.mergeTrees (env.treeOf (env.mergeBaseOf l r)) (env.treeOf l) (env.treeOf r),
        Effect.logInfo "Merge conflicts detected, attempting automatic resolution...",
        Effect.logInfo ("Resolved "
          ++ toString (resolveConflicts env.addOk env.mergedIndex).resolvedCount
          ++ "/" ++ toString env.mergedIndex.conflicts.length ++ " conflicts"),
        Effect.writeTree env.writeTreeId, Effect.findTree env.writeTreeId,
        Effect.checkoutTree env.writeTreeId forceOnlyOpts,
        Effect.repoIndex, Effect.addAll, Effect.indexWrite,
        Effect.logError ("Could not resolve all conflicts automatically (resolved "
          ++ toString (resolveConflicts env.addOk env.mergedIndex).resolvedCount
          ++ "/" ++ toString env.mergedIndex.conflicts.length ++ "). Aborting merge."),
        Effect.findCommit l, Effect.resetHard l]⟩ := by
  simp only [runM, normal_merge, findCommitOp, treeOfOp, mergeBaseOp, mergeTreesOp,
    writeTreeOp, findTreeOp, checkoutTreeOp, repoIndexOp, addAllOp, indexWriteOp,
    getStateOp, resetHardOp, signatureOp, createCommitOp, checkoutHeadOp,
    emitLog, emitLogError, throwM, M.bind_apply, M.pure_apply,
    hf, hc, hres, List.nil_append, List.cons_append, List.append_nil,
    if_true, eq_self_iff_true, ite_true]

/-- The successful conflicted path of `normal_merge`: conflicts were
detected but the resolution passes cleared them all.  The commit section
runs: a merge commit with parents `[l, r]` is created and the working set
is synchronized with the new HEAD by a final `checkout_head(None)`. -/
theorem run_normal_merge_resolved (env : Env) (st : RepoState) (l r : Oid) (nm : String)
    (hf : ∀ k, env.fails k = none)
    (hc : env.mergedIndex.has_conflicts = true)
    (hres : (resolveConflicts env.addOk env.mergedIndex).idx.has_conflicts = false)
    (hhead : st.headRef = some nm) :
    runM (normal_merge env l r) st =
      ⟨Except.ok (),
       { branches := setBranch st.branches nm env.newCommitId,
         headRef := some nm,
         workdir := some (env.treeOf env.newCommitId),
         indexConflicts := false },
       [Effect.findCommit l, Effect.treeOf l, Effect.findCommit r, Effect.treeOf r,
        Effect.mergeBase l r, Effect.findCommit (env.mergeBaseOf l r),
        Effect.treeOf (env.mergeBaseOf l r),
        Effect.mergeTrees (env.treeOf (env.mergeBaseOf l r)) (env.treeOf l) (env.treeOf r),
        Effect.logInfo "Merge conflicts detected, attempting automatic resolution...",
        Effect.logInfo ("Resolved "
          ++ toString (resolveConflicts env.addOk env.mergedIndex).resolvedCount
          ++ "/" ++ toString env.mergedIndex.conflicts.length ++ " conflicts"),
        Effect.writeTree env.writeTreeId, Effect.findTree env.writeTreeId,
        Effect.checkoutTree env.writeTreeId forceOnlyOpts,
        Effect.repoIndex, Effect.addAll, Effect.indexWrite,
        Effect.signatureLookup, Effect.findCommit l, Effect.findCommit r,
        Effect.createCommit (some "HEAD") env.sig env.sig
          ("Merge: " ++ toString r ++ " into " ++ toString l) env.writeTreeId [l, r],
        Effect.checkoutHead none]⟩ := by
  simp only [runM, normal_merge, findCommitOp, treeOfOp, mergeBaseOp, mergeTreesOp,
    writeTreeOp, findTreeOp, checkoutTreeOp, repoIndexOp, addAllOp, indexWriteOp,
    getStateOp, resetHardOp, signatureOp, createCommitOp, checkoutHeadOp,
    emitLog, emitLogError, throwM, M.bind_apply, M.pure_apply,
    hf, hc, hres, hhead, RepoState.headCommit, findBranch_setBranch_self,
    List.nil_append, List.cons_append, List.append_nil,
    if_true, eq_self_iff_true, ite_true, Bool.false_eq_true, if_false, ite_false]

/-- The conflict-free path of `normal_merge`: the merge index is clean, so
the tree is written and checked out directly, a merge commit with parents
`[l, r]` is created, and the working set is synchronized with the new HEAD
by a final `checkout_head(None)`. -/
theorem run_normal_merge_clean (env : Env) (st : RepoState) (l r : Oid) (nm : String)
    (hf : ∀ k, env.fails k = none)
    (hc : env.mergedIndex.has_conflicts = false)
    (hhead : st.headRef = some nm) :
    runM (normal_merge env l r) st =
      ⟨Except.ok (),
       { branches := setBranch st.branches nm env.newCommitId,
         headRef := some nm,
         workdir := some (env.treeOf env.newCommitId),
         indexConflicts := false },
       [Effect.findCommit l, Effect.treeOf l, Effect.findCommit r, Effect.treeOf r,
        Effect.mergeBase l r, Effect.findCommit (env.mergeBaseOf l r),
        Effect.treeOf (env.mergeBaseOf l r),
        Effect.mergeTrees (env.treeOf (env.mergeBaseOf l r)) (env.treeOf l) (env.treeOf r),
        Effect.writeTree env.writeTreeId, Effect.findTree env.writeTreeId,
        Effect.checkoutTree env.writeTreeId forceOnlyOpts,
        Effect.repoIndex, Effect.addAll, Effect.indexWrite,
        Effect.signatureLookup, Effect.findCommit l, Effect.findCommit r,
        Effect.createCommit (some "HEAD") env.sig env.sig
          ("Merge: " ++ toString r ++ " into " ++ toString l) env.writeTreeId [l, r],
        Effect.checkoutHead none]⟩ := by
  simp only [runM, normal_merge, findCommitOp, treeOfOp, mergeBaseOp, mergeTreesOp,
    writeTreeOp, findTreeOp, checkoutTreeOp, repoIndexOp, addAllOp, indexWriteOp,
    getStateOp, resetHardOp, signatureOp, createCommitOp, checkoutHeadOp,
    emitLog, emitLogError, throwM, M.bind_apply, M.pure_apply,
    hf, hc, hhead, RepoState.headCommit, findBranch_setBranch_self,
    List.nil_append, List.cons_append, List.append_nil,
    if_true, eq_self_iff_true, ite_true, Bool.false_eq_true, if_false, ite_false]

/-- The up-to-date path of `do_merge`: when the analysis reports neither
fast-forward nor normal, the run performs only the (read-only) analysis
call, changes nothing, and succeeds. -/
theorem run_do_merge_uptodate (env : Env) (st : RepoState) (b : String) (c : Oid)
    (ha : env.fails OpKind.mergeAnalysis = none)
    (hff : env.analysisFastForward = false)
    (hn : env.analysisNormal = false) :
    runM (do_merge env b c) st = ⟨Except.ok (), st, [Effect.mergeAnalysis]⟩ := by
  simp only [runM, do_merge, mergeAnalysisOp, M.bind_apply, M.pure_apply,
    ha, hff, hn, List.nil_append, Bool.false_eq_true, if_false, ite_false]

/-- The unborn-branch fast-forward path of `do_merge`: the reference lookup
reports no such reference, so the reference is created at the incoming
commit, HEAD is set to it, and the working set is checked out with the
forced, conflict-tolerant options — without ever calling the three-way
tree merge. -/
theorem run_do_merge_unborn (env : Env) (st : RepoState) (b : String) (c : Oid)
    (ha : env.fails OpKind.mergeAnalysis = none)
    (hfr : env.fails OpKind.findReference = none)
    (hcr : env.fails OpKind.createReference = none)
    (hsh : env.fails OpKind.setHead = none)
    (hch : env.fails OpKind.checkoutHead = none)
    (hff : env.analysisFastForward = true)
    (hnb : findBranch st.branches ("refs/heads/" ++ b) = none) :
    runM (do_merge env b c) st =
      ⟨Except.ok (),
       { branches := setBranch st.branches ("refs/heads/" ++ b) c,
         headRef := some ("refs/heads/" ++ b),
         workdir := some (env.treeOf c),
         indexConflicts := st.indexConflicts },
       [Effect.mergeAnalysis,
        Effect.findReference ("refs/heads/" ++ b),
        Effect.createReference ("refs/heads/" ++ b) c true
          ("Setting " ++ b ++ " to " ++ toString c),
        Effect.setHead ("refs/heads/" ++ b),
        Effect.checkoutHead (some unbornOpts)]⟩ := by
  simp only [runM, do_merge, mergeAnalysisOp, findReferenceOp, createReferenceOp,
    setHeadOp, checkoutHeadOp, M.bind_apply, M.pure_apply,
    ha, hfr, hcr, hsh, hch, hff, hnb, RepoState.headCommit, findBranch_setBranch_self,
    List.nil_append, List.cons_append, List.append_nil,
    if_true, eq_self_iff_true, ite_true]

/-- A failing reference lookup on the fast-forward path of `do_merge` is
caught by the `Err(_)` arm: the run proceeds down the unborn-branch path
(create the reference, set HEAD, forced checkout) and the lookup's error
never surfaces. -/
theorem run_do_merge_findref_fail (env : Env) (st : RepoState) (b : String) (c : Oid)
    (e : GitError)
    (ha : env.fails OpKind.mergeAnalysis = none)
    (hfr : env.fails OpKind.findReference = some e)
    (hcr : env.fails OpKind.createReference = none)
    (hsh : env.fails OpKind.setHead = none)
    (hch : env.fails OpKind.checkoutHead = none)
    (hff : env.analysisFastForward = true) :
    runM (do_merge env b c) st =
      ⟨Except.ok (),
       { branches := setBranch st.branches ("refs/heads/" ++ b) c,
         headRef := some ("refs/heads/" ++ b),
         workdir := some (env.treeOf c),
         indexConflicts := st.indexConflicts },
       [Effect.mergeAnalysis,
        Effect.findReference ("refs/heads/" ++ b),
        Effect.createReference ("refs/heads/" ++ b) c true
          ("Setting " ++ b ++ " to " ++ toString c),
        Effect.setHead ("refs/heads/" ++ b),
        Effect.checkoutHead (some unbornOpts)]⟩ := by
  simp only [runM, do_merge, mergeAnalysisOp, findReferenceOp, createReferenceOp,
    setHeadOp, checkoutHeadOp, M.bind_apply, M.pure_apply,
    ha, hfr, hcr, hsh, hch, hff, RepoState.headCommit, findBranch_setBranch_self,
    List.nil_append, List.cons_append, List.append_nil,
    if_true, eq_self_iff_true, ite_true]

/-- A failing merge analysis propagates unchanged as `do_merge`'s error. -/
theorem run_do_merge_analysis_fail (env : Env) (st : RepoState) (b : String) (c : Oid)
    (e : GitError) (ha : env.fails OpKind.mergeAnalysis = some e) :
    runM (do_merge env b c) st = ⟨Except.error e, st, [Effect.mergeAnalysis]⟩ := by
  simp only [runM, do_merge, mergeAnalysisOp, M.bind_apply, M.pure_apply,
    ha, List.nil_append]

/-- A failing HEAD resolution on the normal-merge path propagates unchanged
as `do_merge`'s error. -/
theorem run_do_merge_head_fail (env : Env) (st : RepoState) (b : String) (c : Oid)
    (e : GitError)
    (ha : env.fails OpKind.mergeAnalysis = none)
    (hff : env.analysisFastForward = false)
    (hn : env.analysisNormal = true)
    (hh : env.fails OpKind.headLookup = some e) :
    runM (do_merge env b c) st =
      ⟨Except.error e, st, [Effect.mergeAnalysis, Effect.headLookup]⟩ := by
  simp only [runM, do_merge, mergeAnalysisOp, headOp, M.bind_apply, M.pure_apply,
    ha, hff, hn, hh, List.nil_append, List.cons_append, List.append_nil,
    if_true, eq_self_iff_true, ite_true, Bool.false_eq_true, if_false, ite_false]

instance (a b : Conflict) : Decidable (PathRel a b) := by
  unfold PathRel
  infer_instance

instance (cs : List Conflict) : Decidable (PathsDisjoint cs) := by
  unfold PathsDisjoint
  infer_instance

/-- An error message "names k of n" when it contains the textual fragment
`k/n` (the shape the code itself uses in its log lines, e.g.
`resolved 1/3`). -/
def namesCounts (msg : String) (k n : Nat) : Prop :=
  (toString k ++ "/" ++ toString n).data <:+: msg.data

instance (msg : String) (k n : Nat) : Decidable (namesCounts msg k n) := by
  unfold namesCounts
  infer_instance

/-- The final working-set synchronization of a run is a forced checkout:
the last store call is `checkout_head` with options that set `force`. -/
def finalSyncForced (out : RunOut Unit) : Prop :=
  ∃ o : CheckoutOpts, out.trace.getLast? = some (Effect.checkoutHead (some o)) ∧ o.force = true

theorem slotPaths_nil_of_anySlot_false {c : Conflict} (h : anySlot c = false) :
    c.slotPaths = [] := by
  obtain ⟨o, t, a⟩ := c
  cases o <;> cases t <;> cases a <;> simp_all [anySlot, Conflict.slotPaths, Conflict.slotEntries]

/-! ## Concrete fixtures used by witnesses and counterexamples -/

/-- A store environment in which every call succeeds. -/
def baseEnv : Env :=
  { treeOf := fun c => c + 100,
    mergeBaseOf := fun _ _ => 7,
    mergedIndex := { entries := [], conflicts := [] },
    addOk := fun _ => true,
    sig := "User <user@example.com>",
    writeTreeId := 55,
    newCommitId := 77,
    analysisFastForward := false,
    analysisNormal := true,
    fails := fun _ => none }

/-- A repository with one branch checked out. -/
def baseSt : RepoState :=
  { branches := [("refs/heads/main", 1)],
    headRef := some "refs/heads/main",
    workdir := some 101,
    indexConflicts := false }

/-- Merge producing one conflict that no pass can resolve (all slots
absent). -/
def envAllNone : Env :=
  { baseEnv with mergedIndex := { entries := [], conflicts := [⟨none, none, none⟩] } }

/-- Merge producing two conflicts, one resolvable by pass 1 and one that no
pass can resolve. -/
def envOneOfTwo : Env :=
  { baseEnv with mergedIndex :=
      { entries := [],
        conflicts := [⟨some ⟨"a", 1⟩, some ⟨"a", 2⟩, none⟩, ⟨none, none, none⟩] } }

/-- Merge producing one conflict that pass 1 resolves. -/
def envResolvable : Env :=
  { baseEnv with mergedIndex :=
      { entries := [], conflicts := [⟨some ⟨"a", 1⟩, some ⟨"a", 2⟩, none⟩] } }

/-- Environment whose reference lookups fail with an injected store error
while every other call succeeds. -/
def envRefFail : Env :=
  { baseEnv with
    analysisFastForward := true,
    analysisNormal := false,
    fails := fun k => match k with
      | OpKind.findReference => some "boom"
      | _ => none }

/-- Conflict with all three slots present at path `a`. -/
def cOurs : Conflict := ⟨some ⟨"a", 1⟩, some ⟨"a", 2⟩, some ⟨"a", 3⟩⟩

/-- Conflict with `our` absent and `their`/`ancestor` present at path `b`. -/
def cTheirs : Conflict := ⟨none, some ⟨"b", 2⟩, some ⟨"b", 3⟩⟩

/-- Conflict with only `ancestor` present, at path `c`. -/
def cAncestor : Conflict := ⟨none, none, some ⟨"c", 3⟩⟩

/-- A merge index holding the three witness conflicts. -/
def idxThree : MergeIndex := { entries := [], conflicts := [cOurs, cTheirs, cAncestor] }

/-! ## Claim theorems -/

/-- Claim C1 (as amended): in `normal_merge`, if after conflict resolution,
tree checkout, and the full re-scan the repository index still reports
conflicts, the run hard-resets the branch pointer and the working set back
to the local commit and fails — with the fixed error message
"Could not resolve all merge conflicts automatically"; the resolved/total
conflict counts appear in the error-level log line, not in the returned
error — and no merge commit is created on this path. -/
theorem C1_merge_abort_rollback (env : Env) (st : RepoState) (l r : Oid) (nm : String)
    (hf : ∀ k, env.fails k = none)
    (hc : env.mergedIndex.has_conflicts = true)
    (hres : (resolveConflicts env.addOk env.mergedIndex).idx.has_conflicts = true)
    (hhead : st.headRef = some nm) :
    (runM (normal_merge env l r) st).result
        = Except.error "Could not resolve all merge conflicts automatically"
    ∧ findBranch (runM (normal_merge env l r) st).state.branches nm = some l
    ∧ (runM (normal_merge env l r) st).state.workdir = some (env.treeOf l)
    ∧ Effect.logError ("Could not resolve all conflicts automatically (resolved "
          ++ toString (resolveConflicts env.addOk env.mergedIndex).resolvedCount
          ++ "/" ++ toString env.mergedIndex.conflicts.length ++ "). Aborting merge.")
        ∈ (runM (normal_merge env l r) st).trace
    ∧ (runM (normal_merge env l r) st).trace.all (fun eff => !eff.isCreateCommit) = true := by
  rw [run_normal_merge_abort env st l r hf hc hres]
  refine ⟨rfl, ?_, rfl, ?_, rfl⟩
  · rw [show (st.headRef) = some nm from hhead]
    exact findBranch_setBranch_self _ _ _
  · simp [List.mem_cons]

/-- Witness for C1: a concrete merge with one unresolvable conflict aborts
with the fixed error message. -/
theorem C1_merge_abort_rollback_witness :
    (runM (normal_merge envAllNone 1 2) baseSt).result
      = Except.error "Could not resolve all merge conflicts automatically" :=
  (C1_merge_abort_rollback envAllNone baseSt 1 2 "refs/heads/main"
    (fun _ => rfl) rfl (by decide) rfl).1

/-- Counterexample to claim C1 as stated: at this concrete merge the abort
path runs having resolved 0 of 1 conflicts, but the error the operation
returns is the fixed message, which does not name those counts. -/
theorem C1_error_names_counts_cx :
    (resolveConflicts envAllNone.addOk envAllNone.mergedIndex).resolvedCount = 0
    ∧ envAllNone.mergedIndex.conflicts.length = 1
    ∧ (runM (normal_merge envAllNone 1 2) baseSt).result
        = Except.error "Could not resolve all merge conflicts automatically"
    ∧ ¬ namesCounts "Could not resolve all merge conflicts automatically" 0 1 :=
  ⟨rfl, rfl, rfl, by decide⟩

/-- Claim C2: for every conflict of the three-way merge index, the resolver
stages exactly the entry chosen by the fixed precedence policy — `our`
when present, else `their` when present, else `ancestor` when present —
given that staging succeeds and the conflicts occupy pairwise disjoint
paths. -/
theorem C2_resolver_precedence (addOk : IndexEntry → Bool) (idx : MergeIndex) (c : Conflict)
    (hok : ∀ x, addOk x = true)
    (hd : PathsDisjoint idx.conflicts)
    (hc : c ∈ idx.conflicts) :
    (∀ e, c.our = some e → (resolveConflicts addOk idx).idx.entryAt e.path = some e)
    ∧ (∀ e, c.our = none → c.their = some e →
        (resolveConflicts addOk idx).idx.entryAt e.path = some e)
    ∧ (∀ e, c.our = none → c.their = none → c.ancestor = some e →
        (resolveConflicts addOk idx).idx.entryAt e.path = some e) :=
  ⟨fun _ he => resolve_stages_ours addOk idx hok hd hc he,
   fun _ h1 h2 => resolve_stages_theirs addOk idx hok hd hc h1 h2,
   fun _ h1 h2 h3 => resolve_stages_ancestor addOk idx hok hd hc h1 h2 h3⟩

/-- Witness for C2: concrete conflicts in all three precedence cases get
the policy-selected entry staged at their path. -/
theorem C2_resolver_precedence_witness :
    (resolveConflicts (fun _ => true) idxThree).idx.entryAt "a" = some ⟨"a", 1⟩
    ∧ (resolveConflicts (fun _ => true) idxThree).idx.entryAt "b" = some ⟨"b", 2⟩
    ∧ (resolveConflicts (fun _ => true) idxThree).idx.entryAt "c" = some ⟨"c", 3⟩ :=
  ⟨(C2_resolver_precedence (fun _ => true) idxThree cOurs (fun _ => rfl)
      (by decide) (by decide)).1 ⟨"a", 1⟩ rfl,
   (C2_resolver_precedence (fun _ => true) idxThree cTheirs (fun _ => rfl)
      (by decide) (by decide)).2.1 ⟨"b", 2⟩ rfl rfl,
   (C2_resolver_precedence (fun _ => true) idxThree cAncestor (fun _ => rfl)
      (by decide) (by decide)).2.2 ⟨"c", 3⟩ rfl rfl rfl⟩

/-- Claim C3: for a conflicted merge whose N conflicts contain exactly K
policy-resolvable ones with K < N, the resolver reports exactly K resolved
out of N, and `normal_merge` takes the abort path (hard reset and the
fixed error). -/
theorem C3_conflict_count_accounting (env : Env) (st : RepoState) (l r : Oid)
    (hf : ∀ k, env.fails k = none)
    (hok : ∀ x, env.addOk x = true)
    (hd : PathsDisjoint env.mergedIndex.conflicts)
    (hK : (env.mergedIndex.conflicts.filter anySlot).length
        < env.mergedIndex.conflicts.length) :
    (resolveConflicts env.addOk env.mergedIndex).resolvedCount
        = (env.mergedIndex.conflicts.filter anySlot).length
    ∧ (runM (normal_merge env l r) st).result
        = Except.error "Could not resolve all merge conflicts automatically"
    ∧ Effect.resetHard l ∈ (runM (normal_merge env l r) st).trace := by
  have hcount := resolve_count_exact env.addOk env.mergedIndex hok hd
  rw [List.countP_eq_length_filter] at hcount
  have hex : ∃ c ∈ env.mergedIndex.conflicts, anySlot c = false := by
    by_contra hno
    push_neg at hno
    have hall : ∀ c ∈ env.mergedIndex.conflicts, anySlot c = true := by
      intro c hcm
      cases hx : anySlot c
      · exact absurd hx (hno c hcm)
      · rfl
    have hlen : env.mergedIndex.conflicts.countP anySlot
        = env.mergedIndex.conflicts.length := List.countP_eq_length.mpr hall
    rw [List.countP_eq_length_filter] at hlen
    omega
  obtain ⟨c, hcm, hcf⟩ := hex
  have hsp := slotPaths_nil_of_anySlot_false hcf
  have hresid : (resolveConflicts env.addOk env.mergedIndex).idx.has_conflicts = true :=
    has_conflicts_of_mem _ _ (resolve_keeps_allNone env.addOk env.mergedIndex hcm hsp)
  have hcc : env.mergedIndex.has_conflicts = true := has_conflicts_of_mem _ _ hcm
  refine ⟨hcount, ?_, ?_⟩
  · rw [run_normal_merge_abort env st l r hf hcc hresid]
  · rw [run_normal_merge_abort env st l r hf hcc hresid]
    simp [List.mem_cons]

/-- Witness for C3: a merge with two conflicts, one resolvable, reports
1 of 2 resolved and aborts. -/
theorem C3_conflict_count_accounting_witness :
    (resolveConflicts envOneOfTwo.addOk envOneOfTwo.mergedIndex).resolvedCount
      = (envOneOfTwo.mergedIndex.conflicts.filter anySlot).length :=
  (C3_conflict_count_accounting envOneOfTwo baseSt 1 2
    (fun _ => rfl) (fun _ => rfl) (by decide) (by decide)).1

/-- Claim C4: whenever `normal_merge` obtains a clean result tree (with or
without prior conflict resolution), it creates a merge commit whose message
records both contributing ids, whose parents are exactly
`[local, remote]`, whose author and committer are both the repository's
configured identity, and HEAD's branch is moved to the new commit. -/
theorem C4_merge_commit_created (env : Env) (st : RepoState) (l r : Oid) (nm : String)
    (hf : ∀ k, env.fails k = none)
    (hres : (resolveConflicts env.addOk env.mergedIndex).idx.has_conflicts = false)
    (hhead : st.headRef = some nm) :
    (runM (normal_merge env l r) st).result = Except.ok ()
    ∧ Effect.createCommit (some "HEAD") env.sig env.sig
        ("Merge: " ++ toString r ++ " into " ++ toString l) env.writeTreeId [l, r]
        ∈ (runM (normal_merge env l r) st).trace
    ∧ findBranch (runM (normal_merge env l r) st).state.branches nm
        = some env.newCommitId := by
  by_cases hc : env.mergedIndex.has_conflicts = true
  · rw [run_normal_merge_resolved env st l r nm hf hc hres hhead]
    exact ⟨rfl, by simp [List.mem_cons], findBranch_setBranch_self _ _ _⟩
  · have hcf : env.mergedIndex.has_conflicts = false := by
      rw [← Bool.not_eq_true]
      exact hc
    rw [run_normal_merge_clean env st l r nm hf hcf hhead]
    exact ⟨rfl, by simp [List.mem_cons], findBranch_setBranch_self _ _ _⟩

/-- Witness for C4: a concrete resolvable merge creates the merge commit
with parents `[1, 2]` and the configured identity. -/
theorem C4_merge_commit_created_witness :
    Effect.createCommit (some "HEAD") envResolvable.sig envResolvable.sig
        ("Merge: " ++ toString 2 ++ " into " ++ toString 1) envResolvable.writeTreeId [1, 2]
      ∈ (runM (normal_merge envResolvable 1 2) baseSt).trace :=
  (C4_merge_commit_created envResolvable baseSt 1 2 "refs/heads/main"
    (fun _ => rfl) (by decide) rfl).2.1

/-- Claim C5 (as amended): after creating the merge commit, `normal_merge`
performs a final working-set synchronization — `checkout_head` with
default (non-forced) options as the last store call — leaving the working
set at the new HEAD commit's tree. -/
theorem C5_final_sync_default_options (env : Env) (st : RepoState) (l r : Oid) (nm : String)
    (hf : ∀ k, env.fails k = none)
    (hres : (resolveConflicts env.addOk env.mergedIndex).idx.has_conflicts = false)
    (hhead : st.headRef = some nm) :
    (runM (normal_merge env l r) st).trace.getLast? = some (Effect.checkoutHead none)
    ∧ (runM (normal_merge env l r) st).state.workdir
        = some (env.treeOf env.newCommitId)
    ∧ findBranch (runM (normal_merge env l r) st).state.branches nm
        = some env.newCommitId := by
  by_cases hc : env.mergedIndex.has_conflicts = true
  · rw [run_normal_merge_resolved env st l r nm hf hc hres hhead]
    exact ⟨rfl, rfl, findBranch_setBranch_self _ _ _⟩
  · have hcf : env.mergedIndex.has_conflicts = false := by
      rw [← Bool.not_eq_true]
      exact hc
    rw [run_normal_merge_clean env st l r nm hf hcf hhead]
    exact ⟨rfl, rfl, findBranch_setBranch_self _ _ _⟩

/-- Witness for C5: a concrete clean merge ends with `checkout_head(None)`. -/
theorem C5_final_sync_default_options_witness :
    (runM (normal_merge envResolvable 1 2) baseSt).trace.getLast?
      = some (Effect.checkoutHead none) :=
  (C5_final_sync_default_options envResolvable baseSt 1 2 "refs/heads/main"
    (fun _ => rfl) (by decide) rfl).1

/-- Counterexample to claim C5 as stated: a concrete successful merge run
whose final working-set synchronization is not a forced checkout — the
last call is `checkout_head(None)`, i.e. default options with no force
flag. -/
theorem C5_forced_final_sync_cx :
    (runM (normal_merge envResolvable 1 2) baseSt).result = Except.ok ()
    ∧ ¬ finalSyncForced (runM (normal_merge envResolvable 1 2) baseSt) := by
  refine ⟨rfl, ?_⟩
  rintro ⟨o, hlast, -⟩
  rw [show (runM (normal_merge envResolvable 1 2) baseSt).trace.getLast?
      = some (Effect.checkoutHead none) from rfl] at hlast
  injection hlast with h1
  injection h1 with h2
  exact Option.noConfusion h2

/-- Environment whose analysis reports up-to-date (neither fast-forward nor
normal). -/
def envUpToDate : Env := { baseEnv with analysisNormal := false }

/-- Environment whose merge analysis fails with an injected store error. -/
def envAnalysisFail : Env :=
  { baseEnv with fails := fun k => match k with
      | OpKind.mergeAnalysis => some "io error"
      | _ => none }

/-- Environment whose HEAD resolution fails with an injected store error. -/
def envHeadFail : Env :=
  { baseEnv with fails := fun k => match k with
      | OpKind.headLookup => some "io error"
      | _ => none }

/-- Fast-forward environment whose reference lookups fail with an injected
store error. -/
def envRefFailIo : Env :=
  { baseEnv with
    analysisFastForward := true,
    analysisNormal := false,
    fails := fun k => match k with
      | OpKind.findReference => some "io error"
      | _ => none }

/-- Fast-forward environment in which every call succeeds. -/
def envFF : Env := { baseEnv with analysisFastForward := true, analysisNormal := false }

/-- An empty (unborn) repository: no references, no HEAD. -/
def stEmpty : RepoState :=
  { branches := [], headRef := none, workdir := none, indexConflicts := false }

/-- Claim C6: when the merge analysis reports neither fast-forward nor
normal (up-to-date), `do_merge` succeeds and leaves the branch pointers,
HEAD, the working set, and the index exactly as they were; the only store
call made is the (read-only) analysis itself. -/
theorem C6_up_to_date_noop (env : Env) (st : RepoState) (b : String) (c : Oid)
    (ha : env.fails OpKind.mergeAnalysis = none)
    (hff : env.analysisFastForward = false)
    (hn : env.analysisNormal = false) :
    (runM (do_merge env b c) st).result = Except.ok ()
    ∧ (runM (do_merge env b c) st).state = st
    ∧ (runM (do_merge env b c) st).trace = [Effect.mergeAnalysis] := by
  rw [run_do_merge_uptodate env st b c ha hff hn]
  exact ⟨rfl, rfl, rfl⟩

/-- Witness for C6: an up-to-date merge leaves the concrete repository
state untouched. -/
theorem C6_up_to_date_noop_witness :
    (runM (do_merge envUpToDate "main" 5) baseSt).state = baseSt :=
  (C6_up_to_date_noop envUpToDate baseSt "main" 5 rfl rfl rfl).2.1

/-- Override a store environment so that exactly the calls of kind `k`
fail with `e` and every other call succeeds. -/
def failOnly (env : Env) (k : OpKind) (e : GitError) : Env :=
  { env with fails := fun j => if j = k then some e else none }

set_option maxHeartbeats 2000000 in
/-- Claim C7 (as amended): every Snapshot Store failure during `do_merge`
propagates unchanged as the operation's error with no retry — shown for
each store call the engine makes: the merge analysis; HEAD resolution,
commit lookup, tree lookup, merge base, tree merge, tree write, tree
lookup of the result, checkout of the result tree, index load, re-scan,
index write, signature lookup, commit creation, and final HEAD checkout on
the normal path; the hard reset on the abort path; pointer move, HEAD set,
and checkout on the fast-forward path; and reference creation, HEAD set,
and checkout on the unborn-branch path — except the reference lookup for
`refs/heads/branch` on the fast-forward path: its failure is caught by the
`Err(_)` arm, `do_merge` takes the unborn-branch path (creating the
reference at the incoming commit), and the lookup's error never
surfaces. -/
theorem C7_store_error_propagation (env : Env) (st : RepoState) (b b2 : String)
    (c : Oid) (e : GitError) (nm : String) (hid j : Oid)
    (hff : env.analysisFastForward = false)
    (hn : env.analysisNormal = true)
    (hc : env.mergedIndex.has_conflicts = false)
    (hhead : st.headRef = some nm)
    (hbr : findBranch st.branches nm = some hid)
    (hexist : findBranch st.branches ("refs/heads/" ++ b) = some j)
    (hmissing : findBranch st.branches ("refs/heads/" ++ b2) = none) :
    (runM (do_merge (failOnly env OpKind.mergeAnalysis e) b c) st).result = Except.error e
    ∧ (runM (do_merge (failOnly env OpKind.headLookup e) b c) st).result = Except.error e
    ∧ (runM (do_merge (failOnly env OpKind.findCommit e) b c) st).result = Except.error e
    ∧ (runM (do_merge (failOnly env OpKind.treeOf e) b c) st).result = Except.error e
    ∧ (runM (do_merge (failOnly env OpKind.mergeBase e) b c) st).result = Except.error e
    ∧ (runM (do_merge (failOnly env OpKind.mergeTrees e) b c) st).result = Except.error e
    ∧ (runM (do_merge (failOnly env OpKind.writeTree e) b c) st).result = Except.error e
    ∧ (runM (do_merge (failOnly env OpKind.findTree e) b c) st).result = Except.error e
    ∧ (runM (do_merge (failOnly env OpKind.checkoutTree e) b c) st).result = Except.error e
    ∧ (runM (do_merge (failOnly env OpKind.repoIndex e) b c) st).result = Except.error e
    ∧ (runM (do_merge (failOnly env OpKind.addAll e) b c) st).result = Except.error e
    ∧ (runM (do_merge (failOnly env OpKind.indexWrite e) b c) st).result = Except.error e
    ∧ (runM (do_merge (failOnly env OpKind.signature e) b c) st).result = Except.error e
    ∧ (runM (do_merge (failOnly env OpKind.createCommit e) b c) st).result = Except.error e
    ∧ (runM (do_merge (failOnly env OpKind.checkoutHead e) b c) st).result = Except.error e
    ∧ (runM (do_merge (failOnly
          { env with mergedIndex := { entries := [], conflicts := [⟨none, none, none⟩] } }
          OpKind.resetHard e) b c) st).result = Except.error e
    ∧ (runM (do_merge (failOnly { env with analysisFastForward := true }
          OpKind.setTarget e) b c) st).result = Except.error e
    ∧ (runM (do_merge (failOnly { env with analysisFastForward := true }
          OpKind.setHead e) b c) st).result = Except.error e
    ∧ (runM (do_merge (failOnly { env with analysisFastForward := true }
          OpKind.checkoutHead e) b c) st).result = Except.error e
    ∧ (runM (do_merge (failOnly { env with analysisFastForward := true }
          OpKind.createReference e) b2 c) st).result = Except.error e
    ∧ (runM (do_merge (failOnly { env with analysisFastForward := true }
          OpKind.setHead e) b2 c) st).result = Except.error e
    ∧ (runM (do_merge (failOnly { env with analysisFastForward := true }
          OpKind.checkoutHead e) b2 c) st).result = Except.error e
    ∧ (runM (do_merge (failOnly { env with analysisFastForward := true }
          OpKind.findReference e) b c) st).result = Except.ok ()
    ∧ Effect.createReference ("refs/heads/" ++ b) c true
        ("Setting " ++ b ++ " to " ++ toString c)
      ∈ (runM (do_merge (failOnly { env with analysisFastForward := true }
          OpKind.findReference e) b c) st).trace := by
  have hreset : (runM (do_merge (failOnly
      { env with mergedIndex := { entries := [], conflicts := [⟨none, none, none⟩] } }
      OpKind.resetHard e) b c) st).result = Except.error e := by
    simp [runM, do_merge, normal_merge, mergeAnalysisOp, findReferenceOp, headOp,
      findCommitOp, treeOfOp, mergeBaseOp, mergeTreesOp, writeTreeOp, findTreeOp,
      checkoutTreeOp, repoIndexOp, addAllOp, indexWriteOp, getStateOp, resetHardOp,
      signatureOp, createCommitOp, checkoutHeadOp, emitLog, emitLogError, throwM,
      M.bind_apply, M.pure_apply, failOnly, hff, hn, hhead, hbr, RepoState.headCommit,
      resolveConflicts, runPass, passStep, sel1, sel2, sel3, MergeIndex.has_conflicts]
  refine ⟨?_, ?_, ?_, ?_, ?_, ?_, ?_, ?_, ?_, ?_, ?_, ?_, ?_, ?_, ?_, hreset,
    ?_, ?_, ?_, ?_, ?_, ?_, ?_, ?_⟩
  all_goals
    simp [runM, do_merge, normal_merge, fast_forward, mergeAnalysisOp, findReferenceOp,
      headOp, findCommitOp, treeOfOp, mergeBaseOp, mergeTreesOp, writeTreeOp, findTreeOp,
      checkoutTreeOp, repoIndexOp, addAllOp, indexWriteOp, getStateOp, resetHardOp,
      signatureOp, createCommitOp, checkoutHeadOp, createReferenceOp, setTargetOp,
      setHeadOp, emitLog, emitLogError, throwM, M.bind_apply, M.pure_apply, failOnly,
      hff, hn, hc, hhead, hbr, hexist, hmissing, RepoState.headCommit,
      findBranch_setBranch_self, List.mem_cons]

/-- Witness for C7: a concrete injected analysis failure surfaces
unchanged as the operation's error. -/
theorem C7_store_error_propagation_witness :
    (runM (do_merge (failOnly baseEnv OpKind.mergeAnalysis "io error") "main" 5)
      baseSt).result = Except.error "io error" :=
  (C7_store_error_propagation baseEnv baseSt "main" "feature" 5 "io error"
    "refs/heads/main" 1 1 rfl rfl rfl rfl rfl rfl rfl).1

/-- Counterexample to claim C7 as stated: with the merge analysis reporting
fast-forward and the reference lookup failing with an injected store error
("boom") — even though the reference exists — `do_merge` returns success,
so the lookup failure does not surface as the operation's error. -/
theorem C7_findref_error_swallowed_cx :
    envRefFail.fails OpKind.findReference = some "boom"
    ∧ findBranch baseSt.branches "refs/heads/main" = some 1
    ∧ (runM (do_merge envRefFail "main" 5) baseSt).result = Except.ok ()
    ∧ (runM (do_merge envRefFail "main" 5) baseSt).result ≠ Except.error "boom" := by
  refine ⟨rfl, rfl, rfl, ?_⟩
  intro h
  rw [show (runM (do_merge envRefFail "main" 5) baseSt).result = Except.ok () from rfl] at h
  exact Except.noConfusion h

/-- Claim C8: a successful `fast_forward` performs exactly three store
calls in order — move the branch pointer to the incoming commit with the
reflog message "Fast-Forward: Setting `name` to id: `id`", set HEAD to the
branch, and check out HEAD with forced options — leaving the branch at the
incoming commit and the working set at its tree, regardless of the
previous working-set contents. -/
theorem C8_fast_forward_steps (env : Env) (st : RepoState) (n : String) (i : Oid)
    (h1 : env.fails OpKind.setTarget = none)
    (h2 : env.fails OpKind.setHead = none)
    (h3 : env.fails OpKind.checkoutHead = none) :
    (runM (fast_forward env n i) st).trace =
      [Effect.setTarget n i ("Fast-Forward: Setting " ++ n ++ " to id: " ++ toString i),
       Effect.setHead n,
       Effect.checkoutHead (some forceOnlyOpts)]
    ∧ findBranch (runM (fast_forward env n i) st).state.branches n = some i
    ∧ (runM (fast_forward env n i) st).state.headRef = some n
    ∧ (runM (fast_forward env n i) st).state.workdir = some (env.treeOf i)
    ∧ forceOnlyOpts.force = true := by
  rw [run_fast_forward env st n i h1 h2 h3]
  exact ⟨rfl, findBranch_setBranch_self _ _ _, rfl, rfl, rfl⟩

/-- Witness for C8: a concrete fast-forward moves the branch pointer to the
incoming commit. -/
theorem C8_fast_forward_steps_witness :
    findBranch (runM (fast_forward baseEnv "refs/heads/main" 5) baseSt).state.branches
      "refs/heads/main" = some 5 :=
  (C8_fast_forward_steps baseEnv baseSt "refs/heads/main" 5 rfl rfl rfl).2.1

/-- Claim C9: on the fast-forward path with no existing
`refs/heads/branch` reference, `do_merge` creates the reference at the
incoming commit, sets HEAD to it, and materializes the working set with a
forced checkout that allows conflicting paths to be overwritten — and it
never computes a three-way tree merge. -/
theorem C9_unborn_branch_fast_forward (env : Env) (st : RepoState) (b : String) (c : Oid)
    (ha : env.fails OpKind.mergeAnalysis = none)
    (hfr : env.fails OpKind.findReference = none)
    (hcr : env.fails OpKind.createReference = none)
    (hsh : env.fails OpKind.setHead = none)
    (hch : env.fails OpKind.checkoutHead = none)
    (hff : env.analysisFastForward = true)
    (hnb : findBranch st.branches ("refs/heads/" ++ b) = none) :
    (runM (do_merge env b c) st).result = Except.ok ()
    ∧ findBranch (runM (do_merge env b c) st).state.branches ("refs/heads/" ++ b) = some c
    ∧ (runM (do_merge env b c) st).state.headRef = some ("refs/heads/" ++ b)
    ∧ (runM (do_merge env b c) st).state.workdir = some (env.treeOf c)
    ∧ Effect.checkoutHead (some unbornOpts) ∈ (runM (do_merge env b c) st).trace
    ∧ unbornOpts.force = true
    ∧ unbornOpts.allowConflicts = true
    ∧ (runM (do_merge env b c) st).trace.all (fun eff => !eff.isMergeTrees) = true := by
  rw [run_do_merge_unborn env st b c ha hfr hcr hsh hch hff hnb]
  exact ⟨rfl, findBranch_setBranch_self _ _ _, rfl, rfl, by simp [List.mem_cons],
    rfl, rfl, rfl⟩

/-- Witness for C9: pulling into an empty repository creates the branch at
the incoming commit. -/
theorem C9_unborn_branch_fast_forward_witness :
    findBranch (runM (do_merge envFF "feature" 5) stEmpty).state.branches
      "refs/heads/feature" = some 5 :=
  (C9_unborn_branch_fast_forward envFF stEmpty "feature" 5
    rfl rfl rfl rfl rfl rfl rfl).2.1

/-- Claim C10: the guards of the three resolution passes are pairwise
disjoint, so each conflict is selected by at most one pass and the final
resolved count never exceeds the number of conflicts — for any merge index
and any per-entry staging outcome. -/
theorem C10_guards_disjoint_count_bounded (addOk : IndexEntry → Bool) (idx : MergeIndex)
    (c : Conflict) :
    (((sel1 c).isSome && (sel2 c).isSome) = false)
    ∧ (((sel1 c).isSome && (sel3 c).isSome) = false)
    ∧ (((sel2 c).isSome && (sel3 c).isSome) = false)
    ∧ (resolveConflicts addOk idx).resolvedCount ≤ idx.conflicts.length := by
  refine ⟨?_, ?_, ?_, resolve_count_le addOk idx⟩
  all_goals
    obtain ⟨o, t, a⟩ := c
    cases o <;> cases t <;> cases a <;> rfl
